import Mathlib

/-!
# Verification of the checksum-file parser of `oz/ozutil.py`

This file shallowly embeds the checksum-file parsing core of the repository
(`bsd_split`, `sum_split`, `get_sum_from_file` and its `get_md5sum_from_file` /
`get_sha1sum_from_file` / `get_sha256sum_from_file` wrappers) and proves the
specification's claims about it.

Modelling conventions:
* Python 2 byte strings are modelled as `List Char` (each `Char` with code
  point < 256 stands for one byte).
* Python exceptions (`IndexError` from out-of-range single-character indexing,
  `ValueError` from `str.decode('string_escape')`) are modelled with
  `Except PyErr`.  Python slices never raise and are modelled with
  `List.drop` / `List.take` / `List.dropLast`.
* A checksum file is modelled as the list of lines that `f.xreadlines()`
  yields: each line keeps its trailing `'\n'`, except possibly the last
  line of the file.
-/

namespace Ozutil

/-- The Python exceptions the embedded code can raise. -/
inductive PyErr : Type
  | indexError : PyErr
  | valueError : PyErr
deriving DecidableEq, Repr

deriving instance DecidableEq for Except

/-- Python `line[i]` for a non-negative index `i`: the character at `i`,
or `IndexError` when `i` is out of range. -/
def pyGet (l : List Char) (i : Nat) : Except PyErr Char :=
  match l.get? i with
  | some c => Except.ok c
  | none => Except.error PyErr.indexError

/-- Python `line[-1]`: the last character, or `IndexError` on the empty
string. -/
def pyLast (l : List Char) : Except PyErr Char :=
  match l.getLast? with
  | some c => Except.ok c
  | none => Except.error PyErr.indexError

/-- The characters Python 2 `str.lstrip()` removes (C locale whitespace). -/
def isPySpace (c : Char) : Bool :=
  c = ' ' || c = '\t' || c = '\n' || c = '\x0d' || c = '\x0b' || c = '\x0c'

/-- Python `line.lstrip()`. -/
def pyLstrip (l : List Char) : List Char :=
  l.dropWhile isPySpace

/-- Python `line.rfind(c)`, as an `Option`: the greatest index at which `c`
occurs, `none` when it does not occur (Python's `-1`). -/
def rfindIdx (l : List Char) (c : Char) : Option Nat :=
  match l with
  | [] => none
  | x :: xs =>
    match rfindIdx xs c with
    | some i => some (i + 1)
    | none => if x = c then some 0 else none

/-- The bytes of a Lean string literal, as the `List Char` string model. -/
def pyStr (s : String) : List Char := s.data

/-- An ASCII hexadecimal digit (`0-9`, `a-f`, `A-F`). -/
def isHex (c : Char) : Bool :=
  ('0' ≤ c && c ≤ '9') || ('a' ≤ c && c ≤ 'f') || ('A' ≤ c && c ≤ 'F')

/-- An ASCII octal digit (`0-7`), as tested by `string_escape` decoding. -/
def isOct (c : Char) : Bool :=
  '0' ≤ c && c ≤ '7'

/-- Numeric value of an octal digit. -/
def octVal (c : Char) : Nat := c.toNat - '0'.toNat

/-- Numeric value of a hexadecimal digit. -/
def hexVal (c : Char) : Nat :=
  if '0' ≤ c && c ≤ '9' then c.toNat - '0'.toNat
  else if 'a' ≤ c && c ≤ 'f' then c.toNat - 'a'.toNat + 10
  else c.toNat - 'A'.toNat + 10

/-- Prepend a character to the result of a decode step, propagating errors. -/
def consE (c : Char) (r : Except PyErr (List Char)) : Except PyErr (List Char) :=
  match r with
  | Except.error e => Except.error e
  | Except.ok l => Except.ok (c :: l)

/-- Decode one backslash escape of Python 2 `string_escape`
(`PyString_DecodeEscape` with strict errors).  The argument is the string
right after a backslash; the result is the characters the escape produces
(or `ValueError`) together with the unconsumed remainder: the named escapes
`\\ \' \" \b \f \t \n \r \v \a`, octal escapes of up to three digits (value
taken mod 256), `\x` with exactly two hex digits (otherwise `ValueError`),
a backslash-newline pair producing nothing, an unrecognised escape passing
the backslash and the following character through literally, and a trailing
lone backslash raising `ValueError`. -/
def decodeEscape1 (l : List Char) : Except PyErr (List Char) × Nat :=
  match l with
  | [] => (Except.error PyErr.valueError, 0)
  | e :: rest2 =>
    if e = '\n' then (Except.ok [], 1)
    else if e = '\\' then (Except.ok ['\\'], 1)
    else if e = '\'' then (Except.ok ['\''], 1)
    else if e = '"' then (Except.ok ['"'], 1)
    else if e = 'b' then (Except.ok ['\x08'], 1)
    else if e = 'f' then (Except.ok ['\x0c'], 1)
    else if e = 't' then (Except.ok ['\t'], 1)
    else if e = 'n' then (Except.ok ['\n'], 1)
    else if e = 'r' then (Except.ok ['\x0d'], 1)
    else if e = 'v' then (Except.ok ['\x0b'], 1)
    else if e = 'a' then (Except.ok ['\x07'], 1)
    else if isOct e then
      match rest2 with
      | d2 :: rest3 =>
        if isOct d2 then
          match rest3 with
          | d3 :: _ =>
            if isOct d3 then
              (Except.ok [Char.ofNat ((octVal e * 64 + octVal d2 * 8 + octVal d3) % 256)], 3)
            else (Except.ok [Char.ofNat ((octVal e * 8 + octVal d2) % 256)], 2)
          | [] => (Except.ok [Char.ofNat ((octVal e * 8 + octVal d2) % 256)], 2)
        else (Except.ok [Char.ofNat (octVal e % 256)], 1)
      | [] => (Except.ok [Char.ofNat (octVal e % 256)], 1)
    else if e = 'x' then
      match rest2 with
      | h1 :: h2 :: _ =>
        if isHex h1 && isHex h2 then
          (Except.ok [Char.ofNat (hexVal h1 * 16 + hexVal h2)], 3)
        else (Except.error PyErr.valueError, 0)
      | _ => (Except.error PyErr.valueError, 0)
    else (Except.ok ['\\', e], 1)

/-- Python 2 `str.decode('string_escape')`: each backslash starts an escape
decoded by `decodeEscape1` (which also reports how many characters after
the backslash it consumed); every other character is copied literally. -/
def decodeStringEscape : List Char → Except PyErr (List Char)
  | [] => Except.ok []
  | c :: rest =>
    if c ≠ '\\' then consE c (decodeStringEscape rest)
    else
      match (decodeEscape1 rest).1 with
      | Except.error e => Except.error e
      | Except.ok out =>
        match decodeStringEscape (rest.drop ((decodeEscape1 rest).2)) with
        | Except.error e => Except.error e
        | Except.ok tl => Except.ok (out ++ tl)
termination_by l => l.length
decreasing_by
  simp_wf
  simp only [List.length_drop, List.length_cons]
  omega

/-- `bsd_split(line, digest_type)` from `ozutil.py` lines 106-141: split a
BSD-style checksum line `ALG (filename) = hexdigest` into
`(checksum, filename)`.  Mirrors the source statement by statement,
including the places where Python single-character indexing can raise
`IndexError`.  The result `Except.ok none` is Python's `(None, None)`. -/
def bsd_split (line digest_type : List Char) :
    Except PyErr (Option (List Char × List Char)) :=
  -- current = len(digest_type); if line[current] == ' ': current += 1
  match pyGet line digest_type.length with
  | Except.error e => Except.error e
  | Except.ok c =>
    let current := if c = ' ' then digest_type.length + 1 else digest_type.length
    -- if line[current] != '(': return None, None
    match pyGet line current with
    | Except.error e => Except.error e
    | Except.ok c2 =>
      if c2 ≠ '(' then Except.ok none
      else
        let current := current + 1
        -- file_end = line.rfind(')'); if file_end == -1: return None, None
        match rfindIdx line ')' with
        | none => Except.ok none
        | some file_end =>
          -- filename = line[current:file_end]
          let filename := (line.drop current).take (file_end - current)
          -- line = line[(file_end + 1):]; line = line.lstrip()
          let rest := pyLstrip (line.drop (file_end + 1))
          -- if line[0] != '=': return None, None
          match pyGet rest 0 with
          | Except.error e => Except.error e
          | Except.ok c3 =>
            if c3 ≠ '=' then Except.ok none
            else
              -- line = line[1:]; line = line.lstrip()
              let rest2 := pyLstrip (rest.drop 1)
              -- if line[-1] == '\n': line = line[:-1]
              match pyLast rest2 with
              | Except.error e => Except.error e
              | Except.ok clast =>
                let digest := if clast = '\n' then rest2.dropLast else rest2
                Except.ok (some (digest, filename))

/-- The minimum viable GNU-style line length computed by `sum_split`
(`ozutil.py` lines 147-152): hex digest length + 2 separator bytes +
1 filename byte, plus 1 when the line starts with a backslash. -/
def sum_min_length (digest_bits : Nat) (c0 : Char) : Nat :=
  digest_bits / 4 + 2 + 1 + (if c0 = '\\' then 1 else 0)

/-- `sum_split(line, digest_bits)` from `ozutil.py` lines 143-193: split a
GNU/Linux-style checksum line `[\]hexdigest <space><space-or-*>filename`
into `(hex_digest, filename)`.  Mirrors the source statement by statement;
`line[0]` on an empty line raises `IndexError`, an escaped filename is
decoded with `string_escape` (which can raise `ValueError`).  The `binary`
flag of the source is computed but never used, and is omitted. -/
def sum_split (line : List Char) (digest_bits : Nat) :
    Except PyErr (Option (List Char × List Char)) :=
  let digest_hex_bytes := digest_bits / 4
  -- if line[0] == '\\': min_length += 1  (raises IndexError on empty line)
  match pyGet line 0 with
  | Except.error e => Except.error e
  | Except.ok c0 =>
    -- if len(line) < min_length: return None, None
    if line.length < sum_min_length digest_bits c0 then Except.ok none
    else
      let current := if c0 = '\\' then digest_hex_bytes + 1 else digest_hex_bytes
      let hex_digest :=
        if c0 = '\\' then (line.drop 1).take digest_hex_bytes
        else line.take digest_hex_bytes
      let escaped_filename := c0 = '\\'
      -- if line[current] != ' ' and line[current] != '\t': return None, None
      match pyGet line current with
      | Except.error e => Except.error e
      | Except.ok c1 =>
        if c1 ≠ ' ' ∧ c1 ≠ '\t' then Except.ok none
        else
          -- if line[current] != ' ' and line[current] != '*': return None, None
          match pyGet line (current + 1) with
          | Except.error e => Except.error e
          | Except.ok c2 =>
            if c2 ≠ ' ' ∧ c2 ≠ '*' then Except.ok none
            else
              let current := current + 2
              -- if line[-1] == '\n': filename = line[current:-1]
              -- else: filename = line[current:]
              match pyLast line with
              | Except.error e => Except.error e
              | Except.ok clast =>
                let filename :=
                  if clast = '\n' then (line.drop current).dropLast
                  else line.drop current
                if escaped_filename then
                  match decodeStringEscape filename with
                  | Except.error e => Except.error e
                  | Except.ok fn => Except.ok (some (hex_digest, fn))
                else Except.ok (some (hex_digest, filename))

/-- Where the per-line classification of `get_sum_from_file`
(`ozutil.py` lines 205-222) sends a raw line: skipped (blank or comment),
the BSD-style parser, or the GNU-style parser. -/
inductive Route : Type
  | skip : Route
  | bsd : Route
  | gnu : Route
deriving DecidableEq, Repr

/-- The per-line classification of `get_sum_from_file`: left-strip the
line; skip it when empty or starting with `#`; use `bsd_split` when it
starts with the configured algorithm name, `sum_split` otherwise. -/
def route (line digest_type : List Char) : Route :=
  let l := pyLstrip line
  if l.length = 0 then Route.skip
  else if l.get? 0 = some '#' then Route.skip
  else if digest_type.isPrefixOf l then Route.bsd
  else Route.gnu

/-- One iteration of the scan loop of `get_sum_from_file` on one raw line:
classification followed by the parser the line is routed to.
`Except.ok none` means the loop continues with no candidate entry. -/
def processLine (line : List Char) (digest_bits : Nat) (digest_type : List Char) :
    Except PyErr (Option (List Char × List Char)) :=
  match route line digest_type with
  | Route.skip => Except.ok none
  | Route.bsd => bsd_split (pyLstrip line) digest_type
  | Route.gnu => sum_split (pyLstrip line) digest_bits

/-- The scan loop of `get_sum_from_file` (`ozutil.py` lines 202-229) over
the lines of the checksum file: process lines in order; on the first parsed
entry whose filename equals `file_to_find`, stop with its digest; an
exception raised while parsing a line propagates. -/
def scanLines : List (List Char) → List Char → Nat → List Char →
    Except PyErr (Option (List Char))
  | [], _, _, _ => Except.ok none
  | l :: rest, file_to_find, digest_bits, digest_type =>
    match processLine l digest_bits digest_type with
    | Except.error e => Except.error e
    | Except.ok none => scanLines rest file_to_find digest_bits digest_type
    | Except.ok (some (d, fn)) =>
      if fn = file_to_find then Except.ok (some d)
      else scanLines rest file_to_find digest_bits digest_type

/-- `get_sum_from_file(sumfile, file_to_find, digest_bits, digest_type)`
(`ozutil.py` lines 195-233), with the already-read lines of `sumfile`
standing for the opened file. -/
def get_sum_from_file (lines : List (List Char)) (file_to_find : List Char)
    (digest_bits : Nat) (digest_type : List Char) :
    Except PyErr (Option (List Char)) :=
  scanLines lines file_to_find digest_bits digest_type

/-- Whether control reaches the `f.close()` call of `get_sum_from_file`
(`ozutil.py` line 231).  The call sits directly after the scan loop, with
no `try`/`finally`, so it executes exactly when no exception escapes the
loop. -/
def fileHandleClosed (lines : List (List Char)) (file_to_find : List Char)
    (digest_bits : Nat) (digest_type : List Char) : Bool :=
  match scanLines lines file_to_find digest_bits digest_type with
  | Except.ok _ => true
  | Except.error _ => false

/-- `get_md5sum_from_file` (`ozutil.py` lines 235-239). -/
def get_md5sum_from_file (lines : List (List Char)) (file_to_find : List Char) :
    Except PyErr (Option (List Char)) :=
  get_sum_from_file lines file_to_find 128 (pyStr "MD5")

/-- `get_sha1sum_from_file` (`ozutil.py` lines 241-245). -/
def get_sha1sum_from_file (lines : List (List Char)) (file_to_find : List Char) :
    Except PyErr (Option (List Char)) :=
  get_sum_from_file lines file_to_find 160 (pyStr "SHA1")

/-- `get_sha256sum_from_file` (`ozutil.py` lines 247-251). -/
def get_sha256sum_from_file (lines : List (List Char)) (file_to_find : List Char) :
    Except PyErr (Option (List Char)) :=
  get_sum_from_file lines file_to_find 256 (pyStr "SHA256")

/-! ## Helper lemmas about the string primitives -/

theorem pyGet_of_get? {l : List Char} {i : Nat} {c : Char}
    (h : l.get? i = some c) : pyGet l i = Except.ok c := by
  simp only [pyGet, h]

theorem pyLast_concat (l : List Char) (c : Char) :
    pyLast (l ++ [c]) = Except.ok c := by
  simp [pyLast, List.getLast?_concat]

theorem pyLstrip_cons_of_not_space {c : Char} (l : List Char)
    (h : isPySpace c = false) : pyLstrip (c :: l) = c :: l := by
  simp [pyLstrip, List.dropWhile_cons, h]

/-- A character from one of the six Python whitespace classes is not a hex
digit, contrapositively. -/
theorem isPySpace_eq_false_of_isHex {c : Char} (h : isHex c = true) :
    isPySpace c = false := by
  by_contra hc
  have hs : isPySpace c = true := by simpa using hc
  simp only [isPySpace, Bool.or_eq_true, decide_eq_true_eq] at hs
  rcases hs with ((((h1 | h1) | h1) | h1) | h1) | h1 <;> subst h1 <;>
    simp [isHex] at h

/-- A hex digit is distinct from any character that is not a hex digit. -/
theorem ne_of_isHex {c d : Char} (h : isHex c = true) (hd : isHex d = false) :
    c ≠ d := by
  intro he
  subst he
  rw [h] at hd
  cases hd

theorem pyGet_append_right (A B : List Char) (n : Nat) (h : A.length ≤ n) :
    pyGet (A ++ B) n = pyGet B (n - A.length) := by
  unfold pyGet
  rw [List.get?_append_right h]

theorem rfindIdx_eq_none_of_not_mem {l : List Char} {c : Char}
    (h : c ∉ l) : rfindIdx l c = none := by
  induction l with
  | nil => rfl
  | cons a l ih =>
    have ha : ¬ a = c := fun he => h (he ▸ List.mem_cons_self a l)
    have hl : c ∉ l := fun hm => h (List.mem_cons_of_mem a hm)
    simp [rfindIdx, ih hl, ha]

/-- `rfind` locates the last occurrence: when `c` does not occur after a
given occurrence, that occurrence's index is returned. -/
theorem rfindIdx_append_cons {A B : List Char} {c : Char} (h : c ∉ B) :
    rfindIdx (A ++ c :: B) c = some A.length := by
  induction A with
  | nil => simp [rfindIdx, rfindIdx_eq_none_of_not_mem h]
  | cons a A ih => simp [rfindIdx, ih]

/-! ## The concrete checksum file of the specification's scenario -/

/-- The three lines of the concrete scenario file of the specification:
a comment line, a GNU-style MD5 line for `empty.img`, and a BSD-style SHA1
line for `other.img`. -/
def scenarioFile : List (List Char) :=
  [pyStr "# comment\n",
   pyStr "d41d8cd98f00b204e9800998ecf8427e  empty.img\n",
   pyStr "SHA1 (other.img) = da39a3ee5e6b4b0d3255bfef95601890afd80709\n"]

/-- C1: on the scenario file, the lookup returns the GNU-line digest for
`empty.img` under (MD5, 128), the BSD-line digest for `other.img` under
(SHA1, 160), and the not-found value `none` for `missing.img` under
(MD5, 128). -/
theorem C1_concrete_scenario :
    get_md5sum_from_file scenarioFile (pyStr "empty.img") =
      Except.ok (some (pyStr "d41d8cd98f00b204e9800998ecf8427e")) ∧
    get_sha1sum_from_file scenarioFile (pyStr "other.img") =
      Except.ok (some (pyStr "da39a3ee5e6b4b0d3255bfef95601890afd80709")) ∧
    get_md5sum_from_file scenarioFile (pyStr "missing.img") = Except.ok none := by
  decide

/-- C4 counterexample: with the configured algorithm name `"MD5"`, a line
beginning with the literal text `"SHA256"` is routed to the GNU-style
parser `sum_split`, not to `bsd_split` as the claim states. -/
theorem C4_counterexample :
    route (pyStr "SHA256 (f.img) = 00\n") (pyStr "MD5") = Route.gnu ∧
    route (pyStr "SHA256 (f.img) = 00\n") (pyStr "MD5") ≠ Route.bsd := by
  decide

/-- C4 (amended): a nonblank, non-comment line is routed to `bsd_split`
exactly when it begins (after left-stripping) with the configured algorithm
name, and to `sum_split` exactly when it does not; in particular a line
beginning with `"SHA256"` goes to `bsd_split` only when the configured name
is a prefix of it, such as `"SHA256"` itself. -/
theorem C4_dispatch_amended (digest_type line : List Char)
    (hne : pyLstrip line ≠ [])
    (hc : (pyLstrip line).get? 0 ≠ some '#') :
    (route line digest_type = Route.bsd ↔ digest_type.isPrefixOf (pyLstrip line)) ∧
    (route line digest_type = Route.gnu ↔ ¬ digest_type.isPrefixOf (pyLstrip line)) := by
  have h1 : ¬ (pyLstrip line).length = 0 := by
    simpa [List.length_eq_zero] using hne
  have hc' : (pyLstrip line)[0]? ≠ some '#' := by
    simpa [List.get?_eq_getElem?] using hc
  unfold route
  by_cases hp : digest_type.isPrefixOf (pyLstrip line) <;> simp [h1, hc', hp]

/-- C4 amended, witnessed at a concrete input: with configured name
`"SHA256"`, the line `"SHA256 (f.img) = 00\n"` is routed to `bsd_split`. -/
theorem C4_dispatch_amended_witness :
    (route (pyStr "SHA256 (f.img) = 00\n") (pyStr "SHA256") = Route.bsd ↔
      (pyStr "SHA256").isPrefixOf (pyLstrip (pyStr "SHA256 (f.img) = 00\n"))) ∧
    (route (pyStr "SHA256 (f.img) = 00\n") (pyStr "SHA256") = Route.gnu ↔
      ¬ (pyStr "SHA256").isPrefixOf (pyLstrip (pyStr "SHA256 (f.img) = 00\n"))) :=
  C4_dispatch_amended (pyStr "SHA256") (pyStr "SHA256 (f.img) = 00\n")
    (by decide) (by decide)

/-- C2: BSD round-trip — parsing the formatted line
`"MD5 (" ++ filename ++ ") = " ++ hex ++ "\n"` with `bsd_split` and
algorithm name `"MD5"` returns exactly the pair (hex, filename), for every
filename not containing a newline (even one containing `)` characters,
since the parser locates the closing delimiter as the last `)` of the
line) and every nonempty string of hex digits. -/
theorem C2_bsd_round_trip (filename hex : List Char)
    (hnl : '\n' ∉ filename) (hne : hex ≠ [])
    (hhex : ∀ c ∈ hex, isHex c = true) :
    bsd_split (pyStr "MD5 (" ++ filename ++ pyStr ") = " ++ hex ++ ['\n'])
      (pyStr "MD5") = Except.ok (some (hex, filename)) := by
  obtain ⟨h0, t0, rfl⟩ := List.exists_cons_of_ne_nil hne
  have hh0 : isHex h0 = true := hhex _ (List.mem_cons_self _ _)
  have hs0 : isPySpace h0 = false := isPySpace_eq_false_of_isHex hh0
  have hnotmem : (')' : Char) ∉ h0 :: t0 := by
    intro hm
    have := hhex _ hm
    simp [isHex] at this
  have hB : (')' : Char) ∉ (' ' :: '=' :: ' ' :: ((h0 :: t0) ++ ['\n'])) := by
    intro hm
    rcases List.mem_cons.mp hm with h | hm2
    · exact absurd h (by decide)
    rcases List.mem_cons.mp hm2 with h | hm3
    · exact absurd h (by decide)
    rcases List.mem_cons.mp hm3 with h | hm4
    · exact absurd h (by decide)
    rcases List.mem_append.mp hm4 with h | h
    · exact hnotmem h
    · exact absurd h (by decide)
  show bsd_split
      (['M','D','5',' ','('] ++ filename ++ [')',' ','=',' '] ++ (h0 :: t0) ++ ['\n'])
      ['M','D','5'] = Except.ok (some (h0 :: t0, filename))
  have hassoc : ['M','D','5',' ','('] ++ filename ++ [')',' ','=',' '] ++ (h0 :: t0) ++ ['\n'] =
      (['M','D','5',' ','('] ++ filename) ++
        ')' :: (' ' :: '=' :: ' ' :: ((h0 :: t0) ++ ['\n'])) := by
    simp
  rw [hassoc]
  have e3 : rfindIdx ((['M','D','5',' ','('] ++ filename) ++
      ')' :: (' ' :: '=' :: ' ' :: ((h0 :: t0) ++ ['\n']))) ')' =
      some (5 + filename.length) := by
    rw [rfindIdx_append_cons hB]
    simp only [List.length_append, List.length_cons, List.length_nil, Option.some.injEq]
    all_goals omega
  have e1 : pyGet ((['M','D','5',' ','('] ++ filename) ++
      ')' :: (' ' :: '=' :: ' ' :: ((h0 :: t0) ++ ['\n'])))
      (List.length ['M','D','5']) = Except.ok ' ' := rfl
  have eA : pyGet ('M' :: 'D' :: '5' :: ' ' :: '(' ::
      (filename ++ ')' :: ' ' :: '=' :: ' ' :: h0 :: (t0 ++ ['\n']))) 4 =
      Except.ok '(' := rfl
  have eB : List.drop (5 + filename.length) ('D' :: '5' :: ' ' :: '(' ::
      (filename ++ ')' :: ' ' :: '=' :: ' ' :: h0 :: (t0 ++ ['\n']))) =
      ' ' :: '=' :: ' ' :: h0 :: (t0 ++ ['\n']) := by
    have hsplit : ('D' :: '5' :: ' ' :: '(' ::
        (filename ++ ')' :: ' ' :: '=' :: ' ' :: h0 :: (t0 ++ ['\n']))) =
        (('D' :: '5' :: ' ' :: '(' ::filename) ++ [')']) ++
          (' ' :: '=' :: ' ' :: h0 :: (t0 ++ ['\n'])) := by
      simp
    rw [hsplit]
    exact List.drop_left'
      (by simp only [List.length_append, List.length_cons, List.length_nil]; omega)
  have eC : pyLstrip (' ' :: '=' :: ' ' :: h0 :: (t0 ++ ['\n'])) =
      '=' :: ' ' :: h0 :: (t0 ++ ['\n']) := rfl
  have eD : pyGet ('=' :: ' ' :: h0 :: (t0 ++ ['\n'])) 0 = Except.ok '=' := rfl
  have eE : pyLstrip (' ' :: h0 :: (t0 ++ ['\n'])) = h0 :: (t0 ++ ['\n']) := by
    have h' : pyLstrip (' ' :: h0 :: (t0 ++ ['\n'])) =
        pyLstrip (h0 :: (t0 ++ ['\n'])) := rfl
    rw [h', pyLstrip_cons_of_not_space _ hs0]
  have hlast : pyLast (h0 :: (t0 ++ ['\n'])) = Except.ok '\n' := by
    have h' : h0 :: (t0 ++ ['\n']) = (h0 :: t0) ++ ['\n'] := by simp
    rw [h', pyLast_concat]
  have hdl : (h0 :: (t0 ++ ['\n'])).dropLast = h0 :: t0 := by
    have h' : h0 :: (t0 ++ ['\n']) = (h0 :: t0) ++ ['\n'] := by simp
    rw [h', List.dropLast_concat]
  have hdrop5 : List.drop 5 (['M','D','5',' ','('] ++ filename ++
      ')' :: ' ' :: '=' :: ' ' :: (h0 :: t0 ++ ['\n'])) =
      filename ++ ')' :: ' ' :: '=' :: ' ' :: (h0 :: t0 ++ ['\n']) := rfl
  have htake : List.take filename.length (filename ++
      ')' :: ' ' :: '=' :: ' ' :: (h0 :: t0 ++ ['\n'])) = filename :=
    List.take_left' rfl
  simp only [bsd_split, e1, e3]
  simp [eA, eB, eC, eD, eE, hlast, hdl, hdrop5, htake]

/-- C2, witnessed at a concrete input whose filename contains `)`:
parsing `"MD5 (we)ird.iso) = abc123\n"` yields digest `"abc123"` and
filename `"we)ird.iso"`. -/
theorem C2_bsd_round_trip_witness :
    bsd_split (pyStr "MD5 (" ++ pyStr "we)ird.iso" ++ pyStr ") = " ++
      pyStr "abc123" ++ ['\n']) (pyStr "MD5") =
      Except.ok (some (pyStr "abc123", pyStr "we)ird.iso")) :=
  C2_bsd_round_trip (pyStr "we)ird.iso") (pyStr "abc123")
    (by decide) (by decide) (by decide)

/-- C3: GNU round-trip — parsing the formatted line
`hex ++ "  " ++ filename ++ "\n"` (two-space separator, non-binary mode)
with `sum_split` at the matching bit length returns exactly the pair
(hex, filename), for every hex digest of exactly bit-length/4 hex digits
and every filename without leading backslash, without embedded escape
sequences (no backslash at all), and not containing a newline. -/
theorem C3_gnu_round_trip (digest_bits : Nat) (hex filename : List Char)
    (hlen : hex.length = digest_bits / 4) (hne : hex ≠ [])
    (hhex : ∀ c ∈ hex, isHex c = true)
    (hnl : '\n' ∉ filename) (hnb : '\\' ∉ filename) :
    sum_split (hex ++ pyStr "  " ++ filename ++ ['\n']) digest_bits =
      Except.ok (some (hex, filename)) := by
  obtain ⟨h0, t0, rfl⟩ := List.exists_cons_of_ne_nil hne
  have hh0 : isHex h0 = true := hhex _ (List.mem_cons_self _ _)
  have hbs : ¬ h0 = '\\' := ne_of_isHex hh0 (by decide)
  show sum_split ((h0 :: t0) ++ [' ', ' '] ++ filename ++ ['\n']) digest_bits =
    Except.ok (some (h0 :: t0, filename))
  have e0 : pyGet ((h0 :: t0) ++ [' ', ' '] ++ filename ++ ['\n']) 0 =
      Except.ok h0 := rfl
  simp only [sum_split, e0, sum_min_length, hbs, if_neg]
  have hlen' : t0.length + 1 = digest_bits / 4 := by
    simpa using hlen
  have hcond : ¬ (t0.length + (filename.length + 1 + 1 + 1) <
      digest_bits / 4 + 2) := by
    omega
  have eSep1 : pyGet (h0 :: (t0 ++ ' ' :: ' ' :: (filename ++ ['\n'])))
      (digest_bits / 4) = Except.ok ' ' := by
    rw [show h0 :: (t0 ++ ' ' :: ' ' :: (filename ++ ['\n'])) =
      (h0 :: t0) ++ (' ' :: ' ' :: (filename ++ ['\n'])) from by simp]
    rw [pyGet_append_right _ _ _ (le_of_eq hlen)]
    have h1 : digest_bits / 4 - (h0 :: t0).length = 0 := by rw [hlen]; omega
    rw [h1]
    rfl
  have eSep2 : pyGet (h0 :: (t0 ++ ' ' :: ' ' :: (filename ++ ['\n'])))
      (digest_bits / 4 + 1) = Except.ok ' ' := by
    rw [show h0 :: (t0 ++ ' ' :: ' ' :: (filename ++ ['\n'])) =
      (h0 :: t0) ++ (' ' :: ' ' :: (filename ++ ['\n'])) from by simp]
    rw [pyGet_append_right _ _ _ (le_trans (le_of_eq hlen) (Nat.le_succ _))]
    have h1 : digest_bits / 4 + 1 - (h0 :: t0).length = 1 := by rw [hlen]; omega
    rw [h1]
    rfl
  have hL_last : pyLast (h0 :: (t0 ++ ' ' :: ' ' :: (filename ++ ['\n']))) =
      Except.ok '\n' := by
    rw [show h0 :: (t0 ++ ' ' :: ' ' :: (filename ++ ['\n'])) =
      ((h0 :: t0) ++ ' ' :: ' ' :: filename) ++ ['\n'] from by simp]
    exact pyLast_concat _ _
  have hdropF : List.drop (digest_bits / 4 + 1)
      (t0 ++ ' ' :: ' ' :: (filename ++ ['\n'])) = filename ++ ['\n'] := by
    rw [show t0 ++ ' ' :: ' ' :: (filename ++ ['\n']) =
      (t0 ++ [' ', ' ']) ++ (filename ++ ['\n']) from by simp]
    exact List.drop_left' (by
      simp only [List.length_append, List.length_cons, List.length_nil]
      omega)
  have hdlF : (filename ++ ['\n']).dropLast = filename := List.dropLast_concat
  have htakeF : List.take (digest_bits / 4)
      (h0 :: (t0 ++ ' ' :: ' ' :: (filename ++ ['\n']))) = h0 :: t0 := by
    rw [show h0 :: (t0 ++ ' ' :: ' ' :: (filename ++ ['\n'])) =
      (h0 :: t0) ++ (' ' :: ' ' :: (filename ++ ['\n'])) from by simp]
    exact List.take_left' hlen
  simp [hcond, eSep1, eSep2, hL_last, hdropF, hdlF, htakeF]

/-- C3, witnessed at a concrete input: parsing
`"d41d8cd98f00b204e9800998ecf8427e  empty.img\n"` at 128 bits yields that
digest and filename `"empty.img"`. -/
theorem C3_gnu_round_trip_witness :
    sum_split (pyStr "d41d8cd98f00b204e9800998ecf8427e" ++ pyStr "  " ++
      pyStr "empty.img" ++ ['\n']) 128 =
      Except.ok (some (pyStr "d41d8cd98f00b204e9800998ecf8427e",
        pyStr "empty.img")) :=
  C3_gnu_round_trip 128 (pyStr "d41d8cd98f00b204e9800998ecf8427e")
    (pyStr "empty.img") (by decide) (by decide) (by decide) (by decide) (by decide)

/-- C6: the malformed BSD-style line `"MD5 (x)\n"` (nothing after the last
`)` but whitespace) makes `bsd_split` raise `IndexError` — Python evaluates
`line[0]` on the empty string after stripping — so the exception propagates
out of the scan instead of the line being skipped: a later well-formed
matching line is never reached. -/
theorem C6_malformed_line_raises :
    processLine (pyStr "MD5 (x)\n") 128 (pyStr "MD5") =
      Except.error PyErr.indexError ∧
    scanLines [pyStr "MD5 (x)\n",
               pyStr "d41d8cd98f00b204e9800998ecf8427e  empty.img\n"]
      (pyStr "empty.img") 128 (pyStr "MD5") = Except.error PyErr.indexError := by
  decide

/-- C7: on the escaped GNU-style line
`"\d41d...427e  a\0b\n"`, `sum_split` succeeds and returns a filename
containing a literal NUL byte, decoded from the `\0` octal escape. -/
theorem C7_escape_produces_nul :
    sum_split (pyStr "\\d41d8cd98f00b204e9800998ecf8427e  a\\0b\n") 128 =
      Except.ok (some (pyStr "d41d8cd98f00b204e9800998ecf8427e",
                       ['a', '\x00', 'b'])) ∧
    '\x00' ∈ ['a', '\x00', 'b'] := by
  constructor
  · simp [sum_split, sum_min_length, pyGet, pyLast, pyLstrip, pyStr,
      decodeStringEscape, decodeEscape1, consE, isOct, octVal]
  · decide

/-- One line of the scan neither raises nor matches the target filename:
it is skipped (blank, comment, or no-entry parse) or parses to a filename
different from the target. -/
def lineSkips (line target : List Char) (digest_bits : Nat)
    (digest_type : List Char) : Bool :=
  match processLine line digest_bits digest_type with
  | Except.ok none => true
  | Except.ok (some (_, fn)) => decide (fn ≠ target)
  | Except.error _ => false

theorem scanLines_cons_of_skips {line target : List Char} {digest_bits : Nat}
    {digest_type : List Char} (rest : List (List Char))
    (h : lineSkips line target digest_bits digest_type = true) :
    scanLines (line :: rest) target digest_bits digest_type =
      scanLines rest target digest_bits digest_type := by
  unfold lineSkips at h
  simp only [scanLines]
  cases hp : processLine line digest_bits digest_type with
  | error e => rw [hp] at h; cases h
  | ok v =>
    cases v with
    | none => rfl
    | some p =>
      obtain ⟨d, fn⟩ := p
      rw [hp] at h
      simp only [decide_eq_true_eq] at h
      simp [h]

/-- C5: first-match wins — when no line before `l` raises or matches the
target filename and `l` parses to the target with digest `d`, the scan
returns `d`, and the lines after `l` never affect the result (they can be
replaced by anything without changing it). -/
theorem C5_first_match_wins (digest_bits : Nat)
    (digest_type target d l : List Char)
    (lines1 lines2 lines2' : List (List Char))
    (hskip : ∀ l' ∈ lines1, lineSkips l' target digest_bits digest_type = true)
    (hmatch : processLine l digest_bits digest_type =
      Except.ok (some (d, target))) :
    get_sum_from_file (lines1 ++ l :: lines2) target digest_bits digest_type =
      Except.ok (some d) ∧
    get_sum_from_file (lines1 ++ l :: lines2) target digest_bits digest_type =
      get_sum_from_file (lines1 ++ l :: lines2') target digest_bits
        digest_type := by
  have key : ∀ L1 L2 : List (List Char),
      (∀ l' ∈ L1, lineSkips l' target digest_bits digest_type = true) →
      scanLines (L1 ++ l :: L2) target digest_bits digest_type =
        Except.ok (some d) := by
    intro L1
    induction L1 with
    | nil =>
      intro L2 _
      simp only [List.nil_append, scanLines]
      rw [hmatch]
      simp
    | cons a as ih =>
      intro L2 hsk
      rw [List.cons_append,
        scanLines_cons_of_skips _ (hsk a (List.mem_cons_self _ _))]
      exact ih L2 (fun l' hl' => hsk l' (List.mem_cons_of_mem _ hl'))
  exact ⟨key lines1 lines2 hskip,
    (key lines1 lines2 hskip).trans (key lines1 lines2' hskip).symm⟩

/-- C5, witnessed concretely: a comment line, then a first entry for
`target.iso`, then a conflicting duplicate entry; the result is the first
digest whether or not the duplicate is present. -/
theorem C5_first_match_wins_witness :
    get_sum_from_file
      ([pyStr "# c\n"] ++ pyStr "00000000000000000000000000000000  target.iso\n" ::
        [pyStr "ffffffffffffffffffffffffffffffff  target.iso\n"])
      (pyStr "target.iso") 128 (pyStr "MD5") =
      Except.ok (some (pyStr "00000000000000000000000000000000")) ∧
    get_sum_from_file
      ([pyStr "# c\n"] ++ pyStr "00000000000000000000000000000000  target.iso\n" ::
        [pyStr "ffffffffffffffffffffffffffffffff  target.iso\n"])
      (pyStr "target.iso") 128 (pyStr "MD5") =
      get_sum_from_file
        ([pyStr "# c\n"] ++ pyStr "00000000000000000000000000000000  target.iso\n" :: [])
        (pyStr "target.iso") 128 (pyStr "MD5") :=
  C5_first_match_wins 128 (pyStr "MD5") (pyStr "target.iso")
    (pyStr "00000000000000000000000000000000")
    (pyStr "00000000000000000000000000000000  target.iso\n")
    [pyStr "# c\n"] [pyStr "ffffffffffffffffffffffffffffffff  target.iso\n"] []
    (by decide) (by decide)

/-- C8: a GNU-routed line whose (left-stripped) text is shorter than the
minimum viable length computed by `sum_split` makes `sum_split` return the
no-entry value without raising, and the scan of `get_sum_from_file`
continues with the subsequent lines unchanged. -/
theorem C8_short_gnu_line_skipped (digest_bits : Nat)
    (digest_type l target : List Char) (rest : List (List Char)) (c0 : Char)
    (hroute : route l digest_type = Route.gnu)
    (hhead : (pyLstrip l).get? 0 = some c0)
    (hshort : (pyLstrip l).length < sum_min_length digest_bits c0) :
    sum_split (pyLstrip l) digest_bits = Except.ok none ∧
    scanLines (l :: rest) target digest_bits digest_type =
      scanLines rest target digest_bits digest_type := by
  have h1 : sum_split (pyLstrip l) digest_bits = Except.ok none := by
    unfold sum_split
    rw [pyGet_of_get? hhead]
    simp [hshort]
  refine ⟨h1, ?_⟩
  have h2 : processLine l digest_bits digest_type = Except.ok none := by
    unfold processLine
    rw [hroute, h1]
  simp only [scanLines]
  rw [h2]

/-- C8, witnessed concretely: the four-byte line `"abc\n"` is far shorter
than the 35-byte minimum for 128-bit digests; it is skipped and the scan
moves on to the rest of the file. -/
theorem C8_short_gnu_line_skipped_witness :
    sum_split (pyLstrip (pyStr "abc\n")) 128 = Except.ok none ∧
    scanLines [pyStr "abc\n", pyStr "x\n"] (pyStr "x") 128 (pyStr "MD5") =
      scanLines [pyStr "x\n"] (pyStr "x") 128 (pyStr "MD5") :=
  C8_short_gnu_line_skipped 128 (pyStr "MD5") (pyStr "abc\n") (pyStr "x")
    [pyStr "x\n"] 'a' (by decide) (by decide) (by decide)

/-- C9: on a file whose single line is the malformed BSD-style line
`"MD5 (x)\n"`, the scan of `get_sum_from_file` exits by propagating
`IndexError`, and on that exit path control never reaches the `f.close()`
call, so the file handle is not released by the function. -/
theorem C9_handle_not_closed_on_exception :
    fileHandleClosed [pyStr "MD5 (x)\n"] (pyStr "x") 128 (pyStr "MD5") = false ∧
    get_sum_from_file [pyStr "MD5 (x)\n"] (pyStr "x") 128 (pyStr "MD5") =
      Except.error PyErr.indexError := by
  decide

/-- C10: a GNU-style line consisting of exactly bit-length/4 digest
characters followed by two spaces and a newline passes `sum_split`'s
minimum-length check only thanks to the trailing newline byte, parses
successfully, and yields the empty string as filename; consequently
`get_sum_from_file` with an empty target filename returns the digest of
such a line. -/
theorem C10_empty_filename (digest_bits : Nat) (s digest_type : List Char)
    (hpos : 0 < digest_bits / 4)
    (hlen : s.length = digest_bits / 4)
    (hhex : ∀ c ∈ s, isHex c = true)
    (hdt : digest_type = pyStr "MD5" ∨ digest_type = pyStr "SHA1" ∨
      digest_type = pyStr "SHA256") :
    sum_split (s ++ pyStr "  \n") digest_bits = Except.ok (some (s, [])) ∧
    get_sum_from_file [s ++ pyStr "  \n"] [] digest_bits digest_type =
      Except.ok (some s) := by
  have hne : s ≠ [] := by
    intro he
    rw [he] at hlen
    simp at hlen
    omega
  obtain ⟨h0, t0, rfl⟩ := List.exists_cons_of_ne_nil hne
  have hh0 : isHex h0 = true := hhex _ (List.mem_cons_self _ _)
  have hbs : ¬ h0 = '\\' := ne_of_isHex hh0 (by decide)
  have hs0 : isPySpace h0 = false := isPySpace_eq_false_of_isHex hh0
  have hlen' : t0.length + 1 = digest_bits / 4 := by
    simpa using hlen
  have part1 : sum_split (h0 :: (t0 ++ [' ', ' ', '\n'])) digest_bits =
      Except.ok (some (h0 :: t0, [])) := by
    have e0 : pyGet (h0 :: (t0 ++ [' ', ' ', '\n'])) 0 = Except.ok h0 := rfl
    simp only [sum_split, e0, sum_min_length, hbs, if_neg]
    simp only [if_false, Nat.add_zero]
    split
    next hc =>
      exfalso
      simp only [List.length_cons, List.length_append] at hc
      omega
    next hc =>
      have eSep1 : pyGet (h0 :: (t0 ++ [' ', ' ', '\n'])) (digest_bits / 4) =
          Except.ok ' ' := by
        rw [show h0 :: (t0 ++ [' ', ' ', '\n']) =
          (h0 :: t0) ++ [' ', ' ', '\n'] from rfl]
        rw [pyGet_append_right _ _ _ (le_of_eq hlen)]
        have h1 : digest_bits / 4 - (h0 :: t0).length = 0 := by rw [hlen]; omega
        rw [h1]
        rfl
      have eSep2 : pyGet (h0 :: (t0 ++ [' ', ' ', '\n'])) (digest_bits / 4 + 1) =
          Except.ok ' ' := by
        rw [show h0 :: (t0 ++ [' ', ' ', '\n']) =
          (h0 :: t0) ++ [' ', ' ', '\n'] from rfl]
        rw [pyGet_append_right _ _ _ (le_trans (le_of_eq hlen) (Nat.le_succ _))]
        have h1 : digest_bits / 4 + 1 - (h0 :: t0).length = 1 := by rw [hlen]; omega
        rw [h1]
        rfl
      have hlast : pyLast (h0 :: (t0 ++ [' ', ' ', '\n'])) = Except.ok '\n' := by
        rw [show h0 :: (t0 ++ [' ', ' ', '\n']) =
          ((h0 :: t0) ++ [' ', ' ']) ++ ['\n'] from by simp]
        exact pyLast_concat _ _
      have hdrop2 : List.drop (digest_bits / 4 + 2) (h0 :: (t0 ++ [' ', ' ', '\n'])) =
          ['\n'] := by
        rw [show h0 :: (t0 ++ [' ', ' ', '\n']) =
          ((h0 :: t0) ++ [' ', ' ']) ++ ['\n'] from by simp]
        exact List.drop_left' (by
          simp only [List.length_append, List.length_cons, List.length_nil]
          omega)
      have htake : List.take (digest_bits / 4) (h0 :: (t0 ++ [' ', ' ', '\n'])) =
          h0 :: t0 := by
        rw [show h0 :: (t0 ++ [' ', ' ', '\n']) =
          (h0 :: t0) ++ [' ', ' ', '\n'] from rfl]
        exact List.take_left' hlen
      rw [eSep1, eSep2, hlast, hdrop2, htake]
      simp
  have hlstrip : pyLstrip (h0 :: (t0 ++ [' ', ' ', '\n'])) =
      h0 :: (t0 ++ [' ', ' ', '\n']) := pyLstrip_cons_of_not_space _ hs0
  have hH : ¬ h0 = '#' := ne_of_isHex hh0 (by decide)
  have hM : ¬ ('M' = h0) := Ne.symm (ne_of_isHex hh0 (by decide))
  have hS : ¬ ('S' = h0) := Ne.symm (ne_of_isHex hh0 (by decide))
  have hpre : digest_type.isPrefixOf (h0 :: (t0 ++ [' ', ' ', '\n'])) = false := by
    rcases hdt with h | h | h <;> subst h <;>
      simp [pyStr, List.isPrefixOf, hM, hS]
  have hroute : route (h0 :: (t0 ++ [' ', ' ', '\n'])) digest_type = Route.gnu := by
    unfold route
    rw [hlstrip]
    simp [hH, hpre]
  have hproc : processLine (h0 :: (t0 ++ [' ', ' ', '\n'])) digest_bits digest_type =
      Except.ok (some (h0 :: t0, [])) := by
    unfold processLine
    rw [hroute, hlstrip, part1]
  refine ⟨part1, ?_⟩
  show scanLines [h0 :: (t0 ++ [' ', ' ', '\n'])] [] digest_bits digest_type =
    Except.ok (some (h0 :: t0))
  simp only [scanLines]
  rw [hproc]
  simp

/-- C10, witnessed concretely at 4 digest bits: the line `"a  \n"` parses
to digest `"a"` with empty filename, and a lookup for the empty filename
returns `"a"`. -/
theorem C10_empty_filename_witness :
    sum_split (pyStr "a" ++ pyStr "  \n") 4 = Except.ok (some (pyStr "a", [])) ∧
    get_sum_from_file [pyStr "a" ++ pyStr "  \n"] [] 4 (pyStr "MD5") =
      Except.ok (some (pyStr "a")) :=
  C10_empty_filename 4 (pyStr "a") (pyStr "MD5") (by decide) (by decide)
    (by decide) (Or.inl rfl)

end Ozutil
